import Mathlib

/-!
Verification of the ABAC-Mongo CLI against its design specification.

The repository consists of `abac_mongo_cli/abac.py` (PDP initialization,
policy loading and policy-store wrappers) and `abac_mongo_cli/main.py`
(the interactive enforcement shell).  The policy matching, decision and
storage algorithms themselves are delegated to the external `py_abac`
library, which is not part of the repository; where a property depends on
that delegated behavior we model it from the specification (such
definitions carry a doc comment starting with `Modelled from the spec:`).
Everything else is embedded directly from the Python source.
-/

/-- Attribute values: the tagged union of scalar attribute shapes used by
requests and policies (string, integer, boolean, null). -/
inductive AttrValue where
  | str (s : String)
  | int (n : Int)
  | bool (b : Bool)
  | null
deriving DecidableEq, Repr

/-- An attribute map: association list from attribute names to values. -/
abbrev AttrMap := List (String × AttrValue)

/-- First-match lookup of an attribute name in an attribute map. -/
def lookupAttr : AttrMap → String → Option AttrValue
  | [], _ => none
  | (k, v) :: rest, name => if k = name then some v else lookupAttr rest name

/-- A JSON-like operation payload (filter or document), as an attribute map. -/
abbrev Payload := AttrMap

/-- Modelled from the spec: the predicate forms of a policy target
(equality, set membership via any-of, and numeric comparison), as in the
data-model section; the concrete predicate language lives in the external
`py_abac` library, which is not part of the repository. -/
inductive Predicate where
  | eq (name : String) (v : AttrValue)
  | anyOf (name : String) (vs : List AttrValue)
  | gt (name : String) (n : Int)
  | lt (name : String) (n : Int)
deriving DecidableEq, Repr

/-- The attribute name a predicate refers to. -/
def Predicate.name : Predicate → String
  | .eq n _ => n
  | .anyOf n _ => n
  | .gt n _ => n
  | .lt n _ => n

/-- Modelled from the spec: total evaluation of one predicate against an
attribute map.  An unset attribute makes the predicate false (never an
error), and an attribute of the wrong shape (e.g. a string where a
numeric predicate applies) also evaluates to false.  The real evaluator
is inside the external `py_abac` library. -/
def evalPred (attrs : AttrMap) : Predicate → Bool
  | .eq name v =>
      match lookupAttr attrs name with
      | some w => decide (w = v)
      | none => false
  | .anyOf name vs =>
      match lookupAttr attrs name with
      | some w => vs.contains w
      | none => false
  | .gt name n =>
      match lookupAttr attrs name with
      | some (.int m) => decide (n < m)
      | _ => false
  | .lt name n =>
      match lookupAttr attrs name with
      | some (.int m) => decide (m < n)
      | _ => false

/-- A target: a conjunctive list of predicates over one attribute map. -/
abbrev Target := List Predicate

/-- Modelled from the spec: a target matches when every predicate in it is
satisfied (targets are conjunctive at the top level). -/
def matchesTarget (attrs : AttrMap) (t : Target) : Bool :=
  t.all (evalPred attrs)

/-- Policy effect: ALLOW or DENY. -/
inductive Effect where
  | allow
  | deny
deriving DecidableEq, Repr

/-- Modelled from the spec: a policy document (`uid`, `effect`, `priority`,
the three targets, and an optional condition over context attributes);
the concrete class lives in the external `py_abac` library. -/
structure Policy where
  uid : String
  effect : Effect
  priority : Int
  subject_target : Target
  resource_target : Target
  action_target : Target
  condition : Option Target
deriving DecidableEq, Repr

/-- An access request: subject, resource and action (each an id plus an
attribute map) together with context attributes, as assembled by
`build_request` in `abac.py`. -/
structure Request where
  subject_id : String
  subject_attrs : AttrMap
  resource_id : String
  resource_attrs : AttrMap
  action_id : String
  action_attrs : AttrMap
  context : AttrMap
deriving DecidableEq, Repr

/-- The subject attribute map seen by the matcher: the id plus attributes,
as wrapped by `build_request`. -/
def Request.subjectMap (r : Request) : AttrMap :=
  ("id", .str r.subject_id) :: r.subject_attrs

/-- The resource attribute map seen by the matcher. -/
def Request.resourceMap (r : Request) : AttrMap :=
  ("id", .str r.resource_id) :: r.resource_attrs

/-- The action attribute map seen by the matcher. -/
def Request.actionMap (r : Request) : AttrMap :=
  ("id", .str r.action_id) :: r.action_attrs

/-- Modelled from the spec: a policy is a candidate for a request iff its
subject, resource and action targets all match and its condition (when
present) matches the context; an absent condition is trivially true. -/
def isCandidate (r : Request) (p : Policy) : Bool :=
  matchesTarget r.subjectMap p.subject_target &&
  matchesTarget r.resourceMap p.resource_target &&
  matchesTarget r.actionMap p.action_target &&
  (match p.condition with
   | none => true
   | some c => matchesTarget r.context c)

/-- Modelled from the spec: the candidate set of a request over the loaded
policies. -/
def candidates (policies : List Policy) (r : Request) : List Policy :=
  policies.filter (isCandidate r)

/-- Modelled from the spec: the candidates of maximal priority. -/
def topCands (policies : List Policy) (r : Request) : List Policy :=
  (candidates policies r).filter
    (fun p => (candidates policies r).all (fun q => decide (q.priority ≤ p.priority)))

/-- The least uid among a list of policies (deterministic same-effect
tie-break by uid lexical order). -/
def minUid : List Policy → Option String
  | [] => none
  | p :: ps => some (ps.foldl (fun m q => if q.uid < m then q.uid else m) p.uid)

/-- A decision: the boolean verdict plus the uid of the deciding policy
(`none` meaning no policy matched, hence default deny). -/
structure Decision where
  allowed : Bool
  uid : Option String
deriving DecidableEq, Repr

/-- Modelled from the spec: the HIGHEST_PRIORITY decision algorithm of the
external `py_abac` PDP, selected by `initialize_pdp` in `abac.py`.  Empty
candidate set means DENY (no match); otherwise the highest-priority
candidate decides, with DENY preferred among equal-highest-priority
candidates and uid lexical order breaking same-effect ties. -/
def evaluate (policies : List Policy) (r : Request) : Decision :=
  if (candidates policies r).isEmpty then ⟨false, none⟩
  else if (topCands policies r).any (fun p => decide (p.effect = Effect.deny)) then
    ⟨false, minUid ((topCands policies r).filter (fun p => decide (p.effect = Effect.deny)))⟩
  else
    ⟨true, minUid (topCands policies r)⟩

/-- Modelled from the spec: `MongoStorage.add` of the external `py_abac`
library — fails with a duplicate-uid error when the uid already exists,
otherwise appends the policy. -/
def storageAdd (store : List Policy) (p : Policy) : Except String (List Policy) :=
  if store.any (fun q => decide (q.uid = p.uid)) then .error "DuplicateUid"
  else .ok (store ++ [p])

/-- Modelled from the spec: `MongoStorage.delete` of the external `py_abac`
library — fails with NotFound when the uid is absent, otherwise removes
exactly the policies with that uid. -/
def storageDelete (store : List Policy) (uid : String) : Except String (List Policy) :=
  if store.any (fun q => decide (q.uid = uid)) then
    .ok (store.filter (fun q => !decide (q.uid = uid)))
  else .error "NotFound"

/-- Modelled from the spec: `MongoStorage.update` of the external `py_abac`
library — fails with NotFound when the uid is absent, otherwise swaps the
whole stored document for the new one. -/
def storageUpdate (store : List Policy) (p : Policy) : Except String (List Policy) :=
  if store.any (fun q => decide (q.uid = p.uid)) then
    .ok (store.map (fun q => if q.uid = p.uid then p else q))
  else .error "NotFound"

/-- A policy file as seen by `load_policies` in `abac.py`: it either parses
to a policy document or is malformed (JSON or shape failure). -/
inductive PolicyFile where
  | ok (p : Policy)
  | malformed
deriving DecidableEq, Repr

/-- The store after `load_policies` processes one file (the body of the
try/except in `abac.py` lines 55-65): a parsed policy is added unless its
uid collides; a malformed file or a collision leaves the store as it was. -/
def loadStep (store : List Policy) : PolicyFile → List Policy
  | .malformed => store
  | .ok p =>
      match storageAdd store p with
      | .ok s => s
      | .error _ => store

/-- Whether `load_policies` reports (logs and skips) a given file against a
given store: malformed files and uid collisions are reported. -/
def fileFails (store : List Policy) : PolicyFile → Bool
  | .malformed => true
  | .ok p => store.any (fun q => decide (q.uid = p.uid))

/-- The outcome of a bulk load: the final store and the number of files
skipped and reported via `logger.error`. -/
structure LoadResult where
  store : List Policy
  skipped : Nat
deriving DecidableEq, Repr

/-- The `load_policies` loop of `abac.py` (lines 55-65): each file is
processed inside try/except, a failing file is logged and skipped, and
the loop always continues with the remaining files. -/
def load_policies (store : List Policy) : List PolicyFile → LoadResult
  | [] => ⟨store, 0⟩
  | f :: fs =>
      let r := load_policies (loadStep store f) fs
      ⟨r.store, (if fileFails store f then 1 else 0) + r.skipped⟩

/-- The outcome of a store-wrapper operation in `abac.py`: the resulting
store and whether an error was reported via `logger.error`. -/
structure OpResult where
  store : List Policy
  errorLogged : Bool
deriving DecidableEq, Repr

/-- The `delete_policy` wrapper of `abac.py` (lines 67-84): it calls
`storage.delete` inside try/except; on failure the exception is logged
and swallowed. -/
def delete_policy (store : List Policy) (policy_uid : String) : OpResult :=
  match storageDelete store policy_uid with
  | .ok s => ⟨s, false⟩
  | .error _ => ⟨store, true⟩

/-- The `update_policy` wrapper of `abac.py` (lines 86-108): it reads the
policy file and calls `storage.update` inside try/except; a parse failure
or an update failure is logged and swallowed. -/
def update_policy (store : List Policy) : PolicyFile → OpResult
  | .malformed => ⟨store, true⟩
  | .ok p =>
      match storageUpdate store p with
      | .ok s => ⟨s, false⟩
      | .error _ => ⟨store, true⟩

/-- The state of the migrated store: the recorded migration version, the
policy documents, and the storage-internal structures (indexes) that
migrations adjust. -/
structure MigState where
  version : Nat
  policies : List Policy
  indexes : List String
deriving Repr

/-- Modelled from the spec: one named, ordered migration of the external
`py_abac` migration set — it only adjusts storage-internal structures,
never policy data. -/
structure Migration where
  order : Nat
  action : List String → List String

/-- Modelled from the spec: applying one migration — a migration whose
order does not exceed the recorded version has already been applied and
is skipped; otherwise it runs and its order is recorded. -/
def applyMig (s : MigState) (m : Migration) : MigState :=
  if s.version < m.order then
    { s with indexes := m.action s.indexes, version := m.order }
  else s

/-- Modelled from the spec: `Migrator(...).up()` of the external `py_abac`
library, as invoked by `initialize_pdp` in `abac.py` line 170 — applies
the migration sequence in order, skipping recorded ones. -/
def migrateUp (migs : List Migration) (s : MigState) : MigState :=
  match migs with
  | [] => s
  | m :: ms => migrateUp ms (applyMig s m)

/-- The `action_map` table of `main.py` (lines 50-55): menu choice to
(ABAC action, pymongo operation). -/
def action_map : String → Option (String × String)
  | "1" => some ("read", "find")
  | "2" => some ("create", "insert_one")
  | "3" => some ("update", "update_many")
  | "4" => some ("delete", "delete_many")
  | _ => none

/-- The choice resolution of the shell loop (`main.py` lines 272-292):
`"0"` exits and invalid choices are rejected; an admin choosing `"5"`
(show policies) is rewritten to a read of the reserved collection
`py_abac_policies` with an empty payload, an admin choosing `"6"`
(delete policy) to a delete on that collection with filter
`{"_id": <entered id>}`; otherwise the user-entered collection,
employee id (non-admin only) and payload are used. -/
def resolveChoice (isAdmin : Bool) (choice enteredPolicyId userCollection
    userEmployeeId : String) (userPayload : Payload) :
    Option (String × String × Option String × Payload) :=
  if choice = "0" then none
  else if ¬ (choice = "1" ∨ choice = "2" ∨ choice = "3" ∨ choice = "4" ∨
             (isAdmin = true ∧ (choice = "5" ∨ choice = "6"))) then none
  else if isAdmin ∧ choice = "5" then
    some ("1", "py_abac_policies", none, [])
  else if isAdmin ∧ choice = "6" then
    some ("4", "py_abac_policies", none, [("_id", .str enteredPolicyId)])
  else
    some (choice, userCollection,
          (if isAdmin then none else some userEmployeeId), userPayload)

/-- The request the shell builds for one iteration (`main.py` lines
300-316 together with `build_request` in `abac.py`): resource attributes
hold the employee id (null for admin), action attributes hold the method
name. -/
def shellRequest (subjectId : String) (subjectAttrs : AttrMap)
    (collection : String) (employeeId : Option String) (abacAction : String)
    (context : AttrMap) : Request :=
  { subject_id := subjectId
    subject_attrs := subjectAttrs
    resource_id := collection
    resource_attrs := [("employee_id",
      match employeeId with
      | some s => .str s
      | none => .null)]
    action_id := abacAction
    action_attrs := [("method", .str abacAction)]
    context := context }

/-- One raw pymongo call issued by `perform_request` in `main.py`
(lines 159-213): the operation name, the collection and the payload. -/
structure DownstreamCall where
  op : String
  collection : String
  payload : Payload
deriving DecidableEq, Repr

/-- The observable outcome of the decide-then-act block of the shell
(`main.py` lines 318-330): the PDP verdict, the raw pymongo calls made by
`perform_request`, and the uids passed to `abac.delete_policy` (the shell
never calls it, so this list records that fact). -/
structure StepResult where
  decision : Bool
  downstreamCalls : List DownstreamCall
  storeDeleteCalls : List String
deriving DecidableEq, Repr

/-- The decide-then-act block of the shell (`main.py` lines 318-330):
`pdp.is_allowed` yields a bare boolean; on DENY the shell prints the
denial and continues without touching Mongo; on ALLOW it calls
`perform_request`, which issues exactly one raw pymongo operation. -/
def gatewayStep (policies : List Policy) (req : Request)
    (pymongoOp collection : String) (payload : Payload) : StepResult :=
  if (evaluate policies req).allowed then
    ⟨true, [⟨pymongoOp, collection, payload⟩], []⟩
  else
    ⟨false, [], []⟩

/-- One full iteration of the shell's menu loop (`main.py` lines 269-330)
after the prompts: resolve the choice, look up the action map, build the
request, and run the decide-then-act block.  `none` means the iteration
evaluated nothing (exit or invalid choice). -/
def shellIteration (policies : List Policy) (isAdmin : Bool)
    (choice subjectId : String) (subjectAttrs : AttrMap)
    (enteredPolicyId userCollection userEmployeeId : String)
    (userPayload : Payload) (context : AttrMap) :
    Option (Request × StepResult) :=
  match resolveChoice isAdmin choice enteredPolicyId userCollection
      userEmployeeId userPayload with
  | none => none
  | some (c, collection, employeeId, payload) =>
      match action_map c with
      | none => none
      | some (abacAction, pymongoOp) =>
          let req := shellRequest subjectId subjectAttrs collection
            employeeId abacAction context
          some (req, gatewayStep policies req pymongoOp collection payload)

/-- The fields of the ABAC decision line the shell writes to the audit log
(`main.py` lines 320-323): user, action, resource, payload and the
rendered verdict. -/
structure AbacLogRecord where
  user : String
  action : String
  resource : String
  payload : Payload
  verdict : String
deriving DecidableEq, Repr

/-- The audit record of one decision as logged by the shell (`main.py`
lines 320-323). -/
def abacLogRecord (subjectId abacAction collection : String)
    (payload : Payload) (decision : Bool) : AbacLogRecord :=
  ⟨subjectId, abacAction, collection, payload,
   if decision then "ALLOW" else "DENY"⟩

/-- Whether a stored policy document matches a Mongo filter, where the
document's `_id` is the policy uid: every filter entry must be the pair
`("_id", uid)`. -/
def policyMatchesFilter (payload : Payload) (p : Policy) : Bool :=
  payload.all (fun kv => decide (kv.1 = "_id") && decide (kv.2 = AttrValue.str p.uid))

/-- The effect of one raw pymongo call on the policy collection: a
`delete_many` on `py_abac_policies` removes the matching documents; any
other call leaves the policy store unchanged. -/
def applyDownstream (store : List Policy) (c : DownstreamCall) : List Policy :=
  if c.collection = "py_abac_policies" ∧ c.op = "delete_many" then
    store.filter (fun p => !policyMatchesFilter c.payload p)
  else store

/-- The effect of a list of raw pymongo calls on the policy collection. -/
def runCalls (store : List Policy) (calls : List DownstreamCall) : List Policy :=
  calls.foldl applyDownstream store

theorem all_of_perm {l₁ l₂ : List Policy} (h : l₁.Perm l₂) (f : Policy → Bool) :
    l₁.all f = l₂.all f := by
  rw [Bool.eq_iff_iff, List.all_eq_true, List.all_eq_true]
  exact ⟨fun ha x hx => ha x (h.mem_iff.mpr hx), fun ha x hx => ha x (h.mem_iff.mp hx)⟩

theorem any_of_perm {l₁ l₂ : List Policy} (h : l₁.Perm l₂) (f : Policy → Bool) :
    l₁.any f = l₂.any f := by
  rw [Bool.eq_iff_iff, List.any_eq_true, List.any_eq_true]
  constructor
  · rintro ⟨x, hx, hfx⟩; exact ⟨x, h.mem_iff.mp hx, hfx⟩
  · rintro ⟨x, hx, hfx⟩; exact ⟨x, h.mem_iff.mpr hx, hfx⟩

theorem topCands_perm {policies policies' : List Policy} (r : Request)
    (h : policies.Perm policies') :
    (topCands policies r).Perm (topCands policies' r) := by
  have hc : (candidates policies r).Perm (candidates policies' r) := h.filter _
  unfold topCands
  have hcong : (candidates policies' r).filter
        (fun p => (candidates policies' r).all fun q => decide (q.priority ≤ p.priority))
      = (candidates policies' r).filter
        (fun p => (candidates policies r).all fun q => decide (q.priority ≤ p.priority)) :=
    List.filter_congr (fun p _ => all_of_perm hc.symm _)
  rw [hcong]
  exact hc.filter _

theorem evaluate_allowed_perm {policies policies' : List Policy} (r : Request)
    (h : policies.Perm policies') :
    (evaluate policies r).allowed = (evaluate policies' r).allowed := by
  have hc : (candidates policies r).Perm (candidates policies' r) := h.filter _
  have he : (candidates policies r).isEmpty = (candidates policies' r).isEmpty := by
    rw [Bool.eq_iff_iff, List.isEmpty_iff, List.isEmpty_iff,
      ← List.length_eq_zero, ← List.length_eq_zero, hc.length_eq]
  have ha : (topCands policies r).any (fun p => decide (p.effect = Effect.deny))
      = (topCands policies' r).any (fun p => decide (p.effect = Effect.deny)) :=
    any_of_perm (topCands_perm r h) _
  unfold evaluate
  rw [he, ha]
  by_cases h1 : (candidates policies' r).isEmpty = true
  · simp [h1]
  · by_cases h2 : ((topCands policies' r).any fun p => decide (p.effect = Effect.deny)) = true <;>
      simp [h1, h2]

theorem exists_top_priority :
    ∀ l : List Policy, l ≠ [] → ∃ p ∈ l, ∀ q ∈ l, q.priority ≤ p.priority := by
  intro l
  induction l with
  | nil => intro h; exact absurd rfl h
  | cons a t ih =>
    intro _
    rcases eq_or_ne t [] with rfl | hne
    · refine ⟨a, List.mem_singleton_self a, fun q hq => ?_⟩
      rcases List.mem_singleton.mp hq with rfl
      exact le_refl _
    · obtain ⟨m, hm, hmax⟩ := ih hne
      by_cases hc : m.priority ≤ a.priority
      · refine ⟨a, List.mem_cons_self a t, fun q hq => ?_⟩
        rcases List.mem_cons.mp hq with rfl | hq
        · exact le_refl _
        · exact le_trans (hmax q hq) hc
      · refine ⟨m, List.mem_cons_of_mem a hm, fun q hq => ?_⟩
        rcases List.mem_cons.mp hq with rfl | hq
        · exact le_of_not_le hc
        · exact hmax q hq

theorem mem_topCands (policies : List Policy) (r : Request) (p : Policy) :
    p ∈ topCands policies r ↔
      p ∈ candidates policies r ∧
        ∀ q ∈ candidates policies r, q.priority ≤ p.priority := by
  unfold topCands
  rw [List.mem_filter]
  simp [List.all_eq_true]

theorem evaluate_allowed_of_ne {policies : List Policy} {r : Request}
    (hne : candidates policies r ≠ []) :
    (evaluate policies r).allowed =
      !((topCands policies r).any fun p => decide (p.effect = Effect.deny)) := by
  unfold evaluate
  have he : (candidates policies r).isEmpty = false := by
    simp [List.isEmpty_iff, hne]
  simp only [he, Bool.false_eq_true, if_false]
  by_cases hd : ((topCands policies r).any fun p => decide (p.effect = Effect.deny)) = true
  · simp [hd]
  · have hd' : ((topCands policies r).any fun p => decide (p.effect = Effect.deny)) = false :=
      Bool.eq_false_iff.mpr hd
    simp [hd']

theorem evaluate_allowed_false_iff {policies : List Policy} {r : Request}
    (hne : candidates policies r ≠ []) :
    (evaluate policies r).allowed = false ↔
      ∃ p ∈ candidates policies r, p.effect = Effect.deny ∧
        ∀ q ∈ candidates policies r, q.priority ≤ p.priority := by
  rw [evaluate_allowed_of_ne hne, Bool.not_eq_false', List.any_eq_true]
  constructor
  · rintro ⟨p, hptop, hpd⟩
    rcases (mem_topCands policies r p).mp hptop with ⟨hp, hmax⟩
    exact ⟨p, hp, of_decide_eq_true hpd, hmax⟩
  · rintro ⟨p, hp, hpd, hmax⟩
    exact ⟨p, (mem_topCands policies r p).mpr ⟨hp, hmax⟩, decide_eq_true hpd⟩

theorem evaluate_nil_candidates {policies : List Policy} {r : Request}
    (h : candidates policies r = []) : evaluate policies r = ⟨false, none⟩ := by
  unfold evaluate
  rw [h]
  simp

theorem exists_deciding (policies : List Policy) (r : Request)
    (hne : candidates policies r ≠ []) :
    ∃ p ∈ candidates policies r,
      (∀ q ∈ candidates policies r, q.priority ≤ p.priority) ∧
        ((evaluate policies r).allowed = true ↔ p.effect = Effect.allow) := by
  by_cases hd : ((topCands policies r).any fun p => decide (p.effect = Effect.deny)) = true
  · obtain ⟨p, hptop, hpd⟩ := List.any_eq_true.mp hd
    obtain ⟨hp, hmax⟩ := (mem_topCands policies r p).mp hptop
    have hpd' : p.effect = Effect.deny := of_decide_eq_true hpd
    refine ⟨p, hp, hmax, ?_⟩
    rw [evaluate_allowed_of_ne hne, hd]
    simp [hpd']
  · have hd' : ((topCands policies r).any fun p => decide (p.effect = Effect.deny)) = false :=
      Bool.eq_false_iff.mpr hd
    obtain ⟨p, hp, hmax⟩ := exists_top_priority _ hne
    have hptop : p ∈ topCands policies r := (mem_topCands policies r p).mpr ⟨hp, hmax⟩
    have hpe : p.effect = Effect.allow := by
      have hall := List.any_eq_false.mp hd'
      have hnp := hall p hptop
      cases he : p.effect
      · rfl
      · exact absurd (by simp [he]) hnp
    refine ⟨p, hp, hmax, ?_⟩
    rw [evaluate_allowed_of_ne hne, hd']
    simp [hpe]

theorem isCandidate_priority (r : Request) (p : Policy) (n : Int) :
    isCandidate r { p with priority := n } = isCandidate r p := rfl

theorem evaluate_two_swap (A D : Policy) (r : Request)
    (hA : A.effect = Effect.allow) (hD : D.effect = Effect.deny)
    (hcA : isCandidate r A = true) (hcD : isCandidate r D = true)
    (hpr : D.priority < A.priority) :
    (evaluate [A, D] r).allowed = true ∧
    (evaluate [{ A with priority := D.priority },
               { D with priority := A.priority }] r).allowed = false := by
  have hnle : ¬ (A.priority ≤ D.priority) := not_le.mpr hpr
  have hle : D.priority ≤ A.priority := le_of_lt hpr
  constructor
  · have hcand : candidates [A, D] r = [A, D] := by
      simp [candidates, hcA, hcD]
    have htop : topCands [A, D] r = [A] := by
      unfold topCands
      rw [hcand]
      simp [hle, hnle]
    simp [evaluate, hcand, htop, hA]
  · have hcA' : isCandidate r { A with priority := D.priority } = true := by
      rw [isCandidate_priority]; exact hcA
    have hcD' : isCandidate r { D with priority := A.priority } = true := by
      rw [isCandidate_priority]; exact hcD
    have hcand : candidates [{ A with priority := D.priority },
        { D with priority := A.priority }] r
        = [{ A with priority := D.priority }, { D with priority := A.priority }] := by
      simp [candidates, hcA', hcD']
    have htop : topCands [{ A with priority := D.priority },
        { D with priority := A.priority }] r = [{ D with priority := A.priority }] := by
      unfold topCands
      rw [hcand]
      simp [hle, hnle]
    have hnecand : candidates [{ A with priority := D.priority },
        { D with priority := A.priority }] r ≠ [] := by
      rw [hcand]; simp
    rw [evaluate_allowed_of_ne hnecand, htop]
    simp [hD]

theorem gatewayStep_decision (policies : List Policy) (r : Request)
    (op col : String) (pay : Payload) :
    (gatewayStep policies r op col pay).decision = (evaluate policies r).allowed := by
  unfold gatewayStep
  by_cases h : (evaluate policies r).allowed = true
  · rw [if_pos h, h]
  · have h' : (evaluate policies r).allowed = false := Bool.eq_false_iff.mpr h
    rw [if_neg h, h']

theorem gatewayStep_storeDeletes (policies : List Policy) (r : Request)
    (op col : String) (pay : Payload) :
    (gatewayStep policies r op col pay).storeDeleteCalls = [] := by
  unfold gatewayStep
  by_cases h : (evaluate policies r).allowed = true
  · rw [if_pos h]
  · rw [if_neg h]

theorem shellIteration_some {policies : List Policy} {isAdmin : Bool}
    {choice subjectId : String} {subjectAttrs : AttrMap}
    {entered uc ue : String} {up : Payload} {ctx : AttrMap}
    {req : Request} {res : StepResult}
    (h : shellIteration policies isAdmin choice subjectId subjectAttrs
      entered uc ue up ctx = some (req, res)) :
    ∃ op col pay, res = gatewayStep policies req op col pay := by
  unfold shellIteration at h
  split at h
  · exact absurd h (by simp)
  · split at h
    · exact absurd h (by simp)
    · rw [Option.some.injEq, Prod.mk.injEq] at h
      obtain ⟨hreq, hres⟩ := h
      subst hreq
      exact ⟨_, _, _, hres.symm⟩

theorem loadStep_length (store : List Policy) (f : PolicyFile) :
    (loadStep store f).length = store.length ∨
      (loadStep store f).length = store.length + 1 := by
  cases f with
  | malformed => exact Or.inl rfl
  | ok p =>
    simp only [loadStep, storageAdd]
    by_cases h : (store.any fun q => decide (q.uid = p.uid)) = true
    · rw [if_pos h]
      exact Or.inl rfl
    · rw [if_neg h]
      simp

theorem loadStep_of_fails {store : List Policy} {f : PolicyFile}
    (h : fileFails store f = true) : loadStep store f = store := by
  cases f with
  | malformed => rfl
  | ok p =>
    have hany : (store.any fun q => decide (q.uid = p.uid)) = true := h
    simp only [loadStep, storageAdd]
    rw [if_pos hany]

theorem load_policies_store_length (fs : List PolicyFile) :
    ∀ store : List Policy,
      (load_policies store fs).store.length ≤ store.length + fs.length := by
  induction fs with
  | nil => intro store; exact Nat.le_refl _
  | cons f fs ih =>
    intro store
    have hstep := loadStep_length store f
    have htail := ih (loadStep store f)
    unfold load_policies
    rcases hstep with h | h <;> simp only [List.length_cons] <;> omega

theorem applyMig_policies (s : MigState) (m : Migration) :
    (applyMig s m).policies = s.policies := by
  unfold applyMig
  split <;> rfl

theorem applyMig_version_le (s : MigState) (m : Migration) :
    s.version ≤ (applyMig s m).version := by
  unfold applyMig
  split
  · exact Nat.le_of_lt (by assumption)
  · exact Nat.le_refl _

theorem applyMig_order_le (s : MigState) (m : Migration) :
    m.order ≤ (applyMig s m).version := by
  unfold applyMig
  split
  · exact Nat.le_refl _
  · exact Nat.le_of_not_lt (by assumption)

theorem applyMig_of_le {s : MigState} {m : Migration}
    (h : m.order ≤ s.version) : applyMig s m = s := by
  unfold applyMig
  rw [if_neg (Nat.not_lt.mpr h)]

theorem migrateUp_policies (migs : List Migration) :
    ∀ s : MigState, (migrateUp migs s).policies = s.policies := by
  induction migs with
  | nil => intro s; rfl
  | cons m ms ih =>
    intro s
    unfold migrateUp
    rw [ih (applyMig s m), applyMig_policies]

theorem migrateUp_version_mono (migs : List Migration) :
    ∀ s : MigState, s.version ≤ (migrateUp migs s).version := by
  induction migs with
  | nil => intro s; exact Nat.le_refl _
  | cons m ms ih =>
    intro s
    unfold migrateUp
    exact Nat.le_trans (applyMig_version_le s m) (ih (applyMig s m))

theorem migrateUp_orders_le (migs : List Migration) :
    ∀ s : MigState, ∀ m ∈ migs, m.order ≤ (migrateUp migs s).version := by
  induction migs with
  | nil => intro s m hm; cases hm
  | cons m0 ms ih =>
    intro s m hm
    rcases List.mem_cons.mp hm with rfl | hm
    · unfold migrateUp
      exact Nat.le_trans (applyMig_order_le s m)
        (migrateUp_version_mono ms (applyMig s m))
    · unfold migrateUp
      exact ih (applyMig s m0) m hm

theorem migrateUp_of_all_le (migs : List Migration) :
    ∀ s : MigState, (∀ m ∈ migs, m.order ≤ s.version) → migrateUp migs s = s := by
  induction migs with
  | nil => intro s _; rfl
  | cons m ms ih =>
    intro s h
    unfold migrateUp
    rw [applyMig_of_le (h m (List.mem_cons_self m ms)),
      ih s (fun m' hm' => h m' (List.mem_cons_of_mem m hm'))]

/-- A match-everything ALLOW policy (empty targets, no condition). -/
def pA1 : Policy :=
  { uid := "p1", effect := .allow, priority := 1, subject_target := [],
    resource_target := [], action_target := [], condition := none }

/-- A second match-everything ALLOW policy with a different uid. -/
def pA2 : Policy :=
  { uid := "p2", effect := .allow, priority := 1, subject_target := [],
    resource_target := [], action_target := [], condition := none }

/-- A distinct policy document whose uid collides with `pA1`. -/
def pA1clone : Policy :=
  { uid := "p1", effect := .deny, priority := 7, subject_target := [],
    resource_target := [], action_target := [], condition := none }

/-- A match-everything ALLOW policy with high priority. -/
def pAllowHi : Policy :=
  { uid := "pA", effect := .allow, priority := 10, subject_target := [],
    resource_target := [], action_target := [], condition := none }

/-- A match-everything DENY policy with low priority. -/
def pDenyLo : Policy :=
  { uid := "pD", effect := .deny, priority := 5, subject_target := [],
    resource_target := [], action_target := [], condition := none }

/-- A policy whose subject target matches no request used here. -/
def pNoMatch : Policy :=
  { uid := "pNone", effect := .allow, priority := 1,
    subject_target := [.eq "role" (.str "nobody")],
    resource_target := [], action_target := [], condition := none }

/-- The subject attributes the shell assembles for the admin login
(`main.py` lines 88-92 and 254). -/
def adminAttrs : AttrMap :=
  [("employee_id", .str "admin"), ("role", .str "admin"), ("isChief", .null)]

/-- A sample context map as gathered by the shell (`main.py` lines 303-307). -/
def ctx0 : AttrMap :=
  [("ip", .null), ("weekday", .str "Mon"), ("hour", .int 10)]

/-- The request the shell builds for an admin "show policies" choice. -/
def reqAdminRead : Request :=
  shellRequest "admin" adminAttrs "py_abac_policies" none "read" ctx0

/-- The request the shell builds for an admin "delete policy" choice. -/
def reqAdminDelete : Request :=
  shellRequest "admin" adminAttrs "py_abac_policies" none "delete" ctx0

/-- C1: for every operation attempt whose PDP verdict is DENY, the shell's
decide-then-act block reports the denial and makes zero downstream Mongo
calls for that request. -/
theorem C1_deny_no_downstream (policies : List Policy) (req : Request)
    (pymongoOp collection : String) (payload : Payload)
    (hdeny : (evaluate policies req).allowed = false) :
    (gatewayStep policies req pymongoOp collection payload).decision = false ∧
    (gatewayStep policies req pymongoOp collection payload).downstreamCalls.length = 0 := by
  unfold gatewayStep
  rw [hdeny]
  simp

/-- C1 witness: a concrete denied request makes zero downstream calls. -/
theorem C1_witness :
    (evaluate [pNoMatch] reqAdminDelete).allowed = false ∧
    (gatewayStep [pNoMatch] reqAdminDelete "delete_many" "py_abac_policies"
        [("_id", AttrValue.str "p1")]).decision = false ∧
    (gatewayStep [pNoMatch] reqAdminDelete "delete_many" "py_abac_policies"
        [("_id", AttrValue.str "p1")]).downstreamCalls.length = 0 := by
  have h : (evaluate [pNoMatch] reqAdminDelete).allowed = false := by decide
  exact ⟨h, C1_deny_no_downstream [pNoMatch] reqAdminDelete _ _ _ h⟩

/-- C2: a request whose candidate set is empty evaluates to DENY with the
no-match decision, and the downstream executor is never invoked. -/
theorem C2_default_deny (policies : List Policy) (req : Request)
    (pymongoOp collection : String) (payload : Payload)
    (h : candidates policies req = []) :
    evaluate policies req = ⟨false, none⟩ ∧
    (gatewayStep policies req pymongoOp collection payload).downstreamCalls = [] := by
  have he := evaluate_nil_candidates h
  refine ⟨he, ?_⟩
  unfold gatewayStep
  rw [he]
  simp

/-- C2 witness: a concrete request matching zero policies is denied with
no downstream call. -/
theorem C2_witness :
    evaluate [pNoMatch] reqAdminDelete = ⟨false, none⟩ ∧
    (gatewayStep [pNoMatch] reqAdminDelete "find" "Orders" []).downstreamCalls = [] :=
  C2_default_deny [pNoMatch] reqAdminDelete "find" "Orders" [] (by decide)

/-- C3: for a non-empty candidate set the verdict is the effect of a
highest-priority candidate; the verdict is DENY exactly when some
equal-highest-priority candidate has effect DENY (deny-overrides for
ties); the verdict is invariant under any reordering of the policy
store; and swapping the priorities of an ALLOW and a DENY candidate
swaps the verdict. -/
theorem C3_highest_priority (policies policies' : List Policy) (req : Request)
    (A D : Policy) (r2 : Request)
    (hperm : policies.Perm policies')
    (hne : candidates policies req ≠ [])
    (hA : A.effect = Effect.allow) (hD : D.effect = Effect.deny)
    (hcA : isCandidate r2 A = true) (hcD : isCandidate r2 D = true)
    (hpr : D.priority < A.priority) :
    (∃ p ∈ candidates policies req,
        (∀ q ∈ candidates policies req, q.priority ≤ p.priority) ∧
          ((evaluate policies req).allowed = true ↔ p.effect = Effect.allow)) ∧
    ((evaluate policies req).allowed = false ↔
        ∃ p ∈ candidates policies req, p.effect = Effect.deny ∧
          ∀ q ∈ candidates policies req, q.priority ≤ p.priority) ∧
    ((evaluate policies req).allowed = (evaluate policies' req).allowed) ∧
    ((evaluate [A, D] r2).allowed = true ∧
      (evaluate [{ A with priority := D.priority },
                 { D with priority := A.priority }] r2).allowed = false) :=
  ⟨exists_deciding policies req hne, evaluate_allowed_false_iff hne,
   evaluate_allowed_perm req hperm, evaluate_two_swap A D r2 hA hD hcA hcD hpr⟩

/-- C3 witness: with a high-priority match-all ALLOW and a low-priority
match-all DENY the verdict is ALLOW, swapping the two priorities flips it
to DENY, and reversing the store order leaves the verdict unchanged. -/
theorem C3_witness :
    (evaluate [pAllowHi, pDenyLo] reqAdminDelete).allowed = true ∧
    (evaluate [{ pAllowHi with priority := pDenyLo.priority },
               { pDenyLo with priority := pAllowHi.priority }] reqAdminDelete).allowed = false ∧
    (evaluate [pAllowHi, pDenyLo] reqAdminDelete).allowed
      = (evaluate [pDenyLo, pAllowHi] reqAdminDelete).allowed := by
  have h := C3_highest_priority [pAllowHi, pDenyLo] [pDenyLo, pAllowHi]
    reqAdminDelete pAllowHi pDenyLo reqAdminDelete
    (List.Perm.swap pDenyLo pAllowHi []) (by decide) (by decide) (by decide)
    (by decide) (by decide) (by decide)
  exact ⟨h.2.2.2.1, h.2.2.2.2, h.2.2.1⟩

/-- C4: evaluation is total — a predicate referencing an unset attribute
evaluates to false rather than erroring, a numeric predicate applied to a
string-valued attribute evaluates to false, and every evaluation yields a
verdict that is either ALLOW or DENY. -/
theorem C4_total_evaluation (attrs : AttrMap) (pr : Predicate)
    (policies : List Policy) (req : Request)
    (hunset : lookupAttr attrs pr.name = none) :
    evalPred attrs pr = false ∧
    (∀ (nm s : String) (n : Int), lookupAttr attrs nm = some (.str s) →
        evalPred attrs (.gt nm n) = false ∧ evalPred attrs (.lt nm n) = false) ∧
    ((evaluate policies req).allowed = true ∨ (evaluate policies req).allowed = false) := by
  refine ⟨?_, ?_, ?_⟩
  · cases pr <;> simp [Predicate.name] at hunset <;> simp [evalPred, hunset]
  · intro nm s n hstr
    constructor <;> simp [evalPred, hstr]
  · rcases Bool.eq_false_or_eq_true ((evaluate policies req).allowed) with h | h
    · exact Or.inl h
    · exact Or.inr h

/-- C4 witness: the admin subject's unset `department` attribute makes an
equality predicate false, and a numeric predicate over the string-valued
`role` attribute is false rather than an error. -/
theorem C4_witness :
    evalPred adminAttrs (.eq "department" (.str "sales")) = false ∧
    evalPred adminAttrs (.gt "role" 3) = false := by
  have h := C4_total_evaluation adminAttrs (.eq "department" (.str "sales"))
    [] reqAdminDelete (by decide)
  exact ⟨h.1, (h.2.1 "role" "admin" 3 (by decide)).1⟩

/-- C5: the admin menu options (show policies, delete policy) are
rewritten to ordinary operations against the reserved resource
`py_abac_policies` and evaluated through the same decide-then-act PDP
path as CRUD; an admin request with no matching policy is denied and the
policy store is left unchanged. -/
theorem C5_admin_same_path (policies : List Policy) (subjectId : String)
    (subjectAttrs : AttrMap) (entered uc ue : String) (up : Payload)
    (ctx : AttrMap) (store : List Policy)
    (hnomatch : candidates policies
      (shellRequest subjectId subjectAttrs "py_abac_policies" none "delete" ctx) = []) :
    shellIteration policies true "5" subjectId subjectAttrs entered uc ue up ctx
      = some (shellRequest subjectId subjectAttrs "py_abac_policies" none "read" ctx,
          gatewayStep policies
            (shellRequest subjectId subjectAttrs "py_abac_policies" none "read" ctx)
            "find" "py_abac_policies" []) ∧
    shellIteration policies true "6" subjectId subjectAttrs entered uc ue up ctx
      = some (shellRequest subjectId subjectAttrs "py_abac_policies" none "delete" ctx,
          gatewayStep policies
            (shellRequest subjectId subjectAttrs "py_abac_policies" none "delete" ctx)
            "delete_many" "py_abac_policies" [("_id", .str entered)]) ∧
    (shellRequest subjectId subjectAttrs "py_abac_policies" none "delete" ctx).resource_id
      = "py_abac_policies" ∧
    (gatewayStep policies
        (shellRequest subjectId subjectAttrs "py_abac_policies" none "delete" ctx)
        "delete_many" "py_abac_policies" [("_id", .str entered)]).decision = false ∧
    runCalls store (gatewayStep policies
        (shellRequest subjectId subjectAttrs "py_abac_policies" none "delete" ctx)
        "delete_many" "py_abac_policies" [("_id", .str entered)]).downstreamCalls
      = store := by
  have he := evaluate_nil_candidates hnomatch
  have hgw : gatewayStep policies
      (shellRequest subjectId subjectAttrs "py_abac_policies" none "delete" ctx)
      "delete_many" "py_abac_policies" [("_id", .str entered)]
      = ⟨false, [], []⟩ := by
    unfold gatewayStep
    rw [he]
    simp
  refine ⟨rfl, rfl, rfl, ?_, ?_⟩
  · rw [hgw]
  · rw [hgw]
    rfl

/-- C5 witness: a concrete admin delete-policy request with no matching
policy is routed to resource `py_abac_policies`, denied, and leaves a
concrete policy store unchanged. -/
theorem C5_witness :
    shellIteration [pNoMatch] true "6" "admin" adminAttrs "p1" "" "" [] ctx0
      = some (reqAdminDelete,
          gatewayStep [pNoMatch] reqAdminDelete "delete_many" "py_abac_policies"
            [("_id", AttrValue.str "p1")]) ∧
    (gatewayStep [pNoMatch] reqAdminDelete "delete_many" "py_abac_policies"
        [("_id", AttrValue.str "p1")]).decision = false ∧
    runCalls [pA1] (gatewayStep [pNoMatch] reqAdminDelete "delete_many"
        "py_abac_policies" [("_id", AttrValue.str "p1")]).downstreamCalls = [pA1] := by
  have h := C5_admin_same_path [pNoMatch] "admin" adminAttrs "p1" "" "" [] ctx0 [pA1]
    (by decide)
  exact ⟨h.2.1, h.2.2.2.1, h.2.2.2.2⟩

/-- C6 counterexample: two stores whose (spec-level) deciding policies
have different uids ("p1" versus "p2") yield byte-identical shell
results and audit records for the same request, so the decision the
program produces cannot contain the deciding policy's uid, contrary to
the claim. -/
theorem C6_counterexample :
    (evaluate [pA1] reqAdminRead).uid = some "p1" ∧
    (evaluate [pA2] reqAdminRead).uid = some "p2" ∧
    shellIteration [pA1] true "5" "admin" adminAttrs "" "" "" [] ctx0
      = shellIteration [pA2] true "5" "admin" adminAttrs "" "" "" [] ctx0 ∧
    abacLogRecord "admin" "read" "py_abac_policies" []
        (evaluate [pA1] reqAdminRead).allowed
      = abacLogRecord "admin" "read" "py_abac_policies" []
        (evaluate [pA2] reqAdminRead).allowed :=
  ⟨by decide, by decide, by decide, by decide⟩

/-- C6 (amended): the decision produced for every evaluated request is
the bare boolean verdict of the PDP (`pdp.is_allowed`); the audit line
carries user, action, resource, payload and ALLOW/DENY, but no deciding
policy uid. -/
theorem C6_boolean_decision (policies : List Policy) (isAdmin : Bool)
    (choice subjectId : String) (subjectAttrs : AttrMap)
    (entered uc ue : String) (up : Payload) (ctx : AttrMap)
    (req : Request) (res : StepResult)
    (h : shellIteration policies isAdmin choice subjectId subjectAttrs
      entered uc ue up ctx = some (req, res)) :
    res.decision = (evaluate policies req).allowed := by
  obtain ⟨op, col, pay, hres⟩ := shellIteration_some h
  rw [hres]
  exact gatewayStep_decision policies req op col pay

/-- C6 witness: a concrete allowed iteration's decision equals the bare
boolean verdict. -/
theorem C6_witness :
    (⟨true, [⟨"find", "py_abac_policies", []⟩], []⟩ : StepResult).decision
      = (evaluate [pA1] reqAdminRead).allowed :=
  C6_boolean_decision [pA1] true "5" "admin" adminAttrs "" "" "" [] ctx0
    reqAdminRead ⟨true, [⟨"find", "py_abac_policies", []⟩], []⟩ (by decide)

/-- C7: during bulk load each file yields zero or one policy; a malformed
or uid-colliding file leaves the store unchanged and is reported, and it
never aborts the processing of the remaining files; the final store never
exceeds the initial size plus the number of files. -/
theorem C7_bulk_load (store : List Policy) (f : PolicyFile) (fs : List PolicyFile) :
    ((loadStep store f).length = store.length ∨
      (loadStep store f).length = store.length + 1) ∧
    (fileFails store f = true →
        loadStep store f = store ∧
        load_policies store (f :: fs)
          = ⟨(load_policies store fs).store,
              1 + (load_policies store fs).skipped⟩) ∧
    (load_policies store fs).store.length ≤ store.length + fs.length := by
  refine ⟨loadStep_length store f, ?_, load_policies_store_length fs store⟩
  intro hf
  have hstep := loadStep_of_fails hf
  refine ⟨hstep, ?_⟩
  simp only [load_policies]
  rw [hstep, hf]
  simp

/-- C7 witness: a file colliding on uid "p1" is skipped and reported
while the following file is still processed. -/
theorem C7_witness :
    loadStep [pA1] (PolicyFile.ok pA1clone) = [pA1] ∧
    load_policies [pA1] [PolicyFile.ok pA1clone, PolicyFile.ok pA2]
      = ⟨(load_policies [pA1] [PolicyFile.ok pA2]).store,
          1 + (load_policies [pA1] [PolicyFile.ok pA2]).skipped⟩ :=
  (C7_bulk_load [pA1] (PolicyFile.ok pA1clone) [PolicyFile.ok pA2]).2.1 (by decide)

/-- C8: update or delete of a policy whose uid is absent fails with a
NotFound error; the wrappers in `abac.py` surface it by logging an error,
and the store is left unchanged. -/
theorem C8_notfound_no_mutation (store : List Policy) (uid : String) (p : Policy)
    (hd : (store.any fun q => decide (q.uid = uid)) = false)
    (hu : (store.any fun q => decide (q.uid = p.uid)) = false) :
    storageDelete store uid = .error "NotFound" ∧
    delete_policy store uid = ⟨store, true⟩ ∧
    storageUpdate store p = .error "NotFound" ∧
    update_policy store (.ok p) = ⟨store, true⟩ := by
  have h1 : storageDelete store uid = .error "NotFound" := by
    unfold storageDelete
    rw [hd]
    simp
  have h3 : storageUpdate store p = .error "NotFound" := by
    unfold storageUpdate
    rw [hu]
    simp
  refine ⟨h1, ?_, h3, ?_⟩
  · unfold delete_policy
    rw [h1]
  · simp only [update_policy]
    rw [h3]

/-- C8 witness: deleting or updating uid "p1" against a store holding
only "p2" fails with NotFound and mutates nothing. -/
theorem C8_witness :
    storageDelete [pA2] "p1" = .error "NotFound" ∧
    delete_policy [pA2] "p1" = ⟨[pA2], true⟩ ∧
    storageUpdate [pA2] pA1 = .error "NotFound" ∧
    update_policy [pA2] (.ok pA1) = ⟨[pA2], true⟩ :=
  C8_notfound_no_mutation [pA2] "p1" pA1 (by decide) (by decide)

/-- C9: applying the startup migration sequence twice in a row leaves the
store's recorded migration version (and whole state) identical to
applying it once, and migrations never touch the policy documents, so no
duplicate policies are produced. -/
theorem C9_idempotent_migration (migs : List Migration) (s : MigState) :
    migrateUp migs (migrateUp migs s) = migrateUp migs s ∧
    (migrateUp migs s).policies = s.policies :=
  ⟨migrateUp_of_all_le migs (migrateUp migs s) (migrateUp_orders_le migs s),
   migrateUp_policies migs s⟩

/-- C10: when the PDP allows an admin's delete-policy request, the shell
issues exactly one raw `delete_many` on the `py_abac_policies` collection
with filter `{"_id": <entered string>}`, and the Policy Store wrapper
`delete_policy` is never invoked from any shell iteration. -/
theorem C10_raw_delete_many (policies : List Policy) (subjectId : String)
    (subjectAttrs : AttrMap) (entered uc ue : String) (up : Payload)
    (ctx : AttrMap)
    (hallow : (evaluate policies (shellRequest subjectId subjectAttrs
      "py_abac_policies" none "delete" ctx)).allowed = true) :
    shellIteration policies true "6" subjectId subjectAttrs entered uc ue up ctx
      = some (shellRequest subjectId subjectAttrs "py_abac_policies" none "delete" ctx,
          ⟨true, [⟨"delete_many", "py_abac_policies", [("_id", .str entered)]⟩], []⟩) ∧
    (∀ (pol : List Policy) (isA : Bool) (ch sid : String) (sattrs : AttrMap)
        (e c u : String) (pay : Payload) (cx : AttrMap)
        (req : Request) (res : StepResult),
        shellIteration pol isA ch sid sattrs e c u pay cx = some (req, res) →
        res.storeDeleteCalls = []) := by
  constructor
  · have hgw : gatewayStep policies
        (shellRequest subjectId subjectAttrs "py_abac_policies" none "delete" ctx)
        "delete_many" "py_abac_policies" [("_id", .str entered)]
        = ⟨true, [⟨"delete_many", "py_abac_policies", [("_id", .str entered)]⟩], []⟩ := by
      unfold gatewayStep
      rw [if_pos hallow]
    have hiter : shellIteration policies true "6" subjectId subjectAttrs
        entered uc ue up ctx
        = some (shellRequest subjectId subjectAttrs "py_abac_policies" none "delete" ctx,
            gatewayStep policies
              (shellRequest subjectId subjectAttrs "py_abac_policies" none "delete" ctx)
              "delete_many" "py_abac_policies" [("_id", .str entered)]) := rfl
    rw [hiter, hgw]
  · intro pol isA ch sid sattrs e c u pay cx req res hsome
    obtain ⟨op, col, pl, hres⟩ := shellIteration_some hsome
    rw [hres]
    exact gatewayStep_storeDeletes pol req op col pl

/-- C10 witness: with a match-all ALLOW policy, the admin delete-policy
choice issues the raw `delete_many` call with the entered id. -/
theorem C10_witness :
    shellIteration [pA1] true "6" "admin" adminAttrs "p1" "" "" [] ctx0
      = some (reqAdminDelete,
          ⟨true, [⟨"delete_many", "py_abac_policies",
            [("_id", AttrValue.str "p1")]⟩], []⟩) :=
  (C10_raw_delete_many [pA1] "admin" adminAttrs "p1" "" "" [] ctx0 (by decide)).1
